import Mathlib

/-!
Verification of the CertiMate backend core against its specification.

The definitions below are a shallow embedding of the Python sources:
  app/services/job_service.py         (JobService)
  app/services/parallel_generator.py  (ParallelCertificateGenerator)
  app/utils/template_cache.py         (TemplateCache)
  app/services/placeholder_advanced.py (AdvancedPlaceholderService)
  app/services/pdf_service.py         (PDFService.render_name_on_image)

Modelling conventions:
  - Python ints are `Nat`/`Int`; machine timestamps are abstract `Nat` clock
    values supplied by the caller (the code only ever subtracts them).
  - Python dicts keyed by strings are association lists in insertion order,
    which matches CPython dict iteration-order semantics (updating a value
    keeps the key's position; deleting and re-adding appends).
  - External capabilities (the OCR engine, PIL text measurement, the pixel
    `getbbox` ink query, row-level save success) are oracle functions passed
    as arguments, so every theorem quantifies over their behaviour.
  - Fallible code returns `Except String`; an exception that propagates out
    of a Python function is an `Except.error`.
-/

namespace CertiMate

/-! ## JobService (app/services/job_service.py)

A job's status file.  `errors` records the appended error log entries
(`_append_error` is called only on a failed update that carries a message).
-/

structure JobStatus where
  status : String
  total_items : Nat
  processed_items : Nat
  successful_items : Nat
  failed_items : Nat
  errors : List String
  deriving Repr, DecidableEq

/-- `JobService.create_job`: zeroed counters, status `"queued"`, empty error
log (`_save_errors(job_id, [])`). -/
def create_job (total_items : Nat) : JobStatus :=
  { status := "queued"
    total_items := total_items
    processed_items := 0
    successful_items := 0
    failed_items := 0
    errors := [] }

/-- `JobService.update_progress`: increments `processed_items`, then exactly
one of `successful_items` / `failed_items`; appends to the error log on a
failure that carries an error message; finally recomputes `status`:
terminal (`"completed"` / `"completed_with_errors"`) once
`processed_items >= total_items`, else `"processing"`. -/
def update_progress (s : JobStatus) (success : Bool) (error : Option String) : JobStatus :=
  let s1 := { s with processed_items := s.processed_items + 1 }
  let s2 :=
    if success then
      { s1 with successful_items := s1.successful_items + 1 }
    else
      { s1 with
        failed_items := s1.failed_items + 1
        errors := match error with
          | some e => s1.errors ++ [e]
          | none => s1.errors }
  if s2.processed_items ≥ s2.total_items then
    { s2 with status := if s2.failed_items = 0 then "completed" else "completed_with_errors" }
  else
    { s2 with status := "processing" }

/-- One observation step of a job: the `success` flag and optional error
message passed to a single `update_progress` call. -/
def applyUpdates (s : JobStatus) (ops : List (Bool × Option String)) : JobStatus :=
  ops.foldl (fun t op => update_progress t op.1 op.2) s

/-- A job history: one `create_job` followed by a sequence of
`update_progress` calls. -/
def runJob (total : Nat) (ops : List (Bool × Option String)) : JobStatus :=
  applyUpdates (create_job total) ops

/-- Count of failed updates in an operation list. -/
def countFails (ops : List (Bool × Option String)) : Nat :=
  (ops.filter (fun op => !op.1)).length

/-- Count of successful updates in an operation list. -/
def countSuccs (ops : List (Bool × Option String)) : Nat :=
  (ops.filter (fun op => op.1)).length

/-- A job status is terminal when the batch has been completed. -/
def isTerminal (s : JobStatus) : Prop :=
  s.status = "completed" ∨ s.status = "completed_with_errors"

instance (s : JobStatus) : Decidable (isTerminal s) := by
  unfold isTerminal; infer_instance

/-! ## ParallelCertificateGenerator (app/services/parallel_generator.py)

`generate_batch_certificates` embedded over oracles for the external world:
whether the CSV read raised, the detected placeholder keys, whether the
template image decoded, and a per-row save-success oracle (the image `save`
call is the only per-row step whose failure is not determined by the row's
data, since `_render_text_on_image` swallows its own exceptions).
-/

/-- A CSV row: an ordered association list from column name to string value
(`csv.DictReader` row, keys in column order). -/
abbrev Row := List (String × String)

/-- Dictionary lookup in an association list (first binding wins, as in a
Python dict with unique keys). -/
def lookupCol (row : Row) (c : String) : Option String :=
  (row.find? (fun p => p.1 = c)).map (·.2)

/-- The body of `_generate_single_certificate`'s `generate_certificate`
closure: resolve the name column (`mapping.get('name')`, falling back to the
row's first column; Python treats an empty string as falsy), fail when the
column is missing from the row or the stripped value is empty, then render
and save (`saveOk`).  Returns `true` iff the row produced an output file;
on `false` the task's handler records a failed progress update instead. -/
def rowTask (mapping : Row) (row : Row) (saveOk : Bool) : Bool :=
  let name_column :=
    match lookupCol mapping "name" with
    | some c => if c = "" then (row.head?.map (·.1)) else some c
    | none => row.head?.map (·.1)
  match name_column with
  | none => false
  | some c =>
    match lookupCol row c with
    | none => false
    | some v => if v.trim = "" then false else saveOk

/-- The `AttributeError` message raised at
`JobService.set_download_info(...)`: `JobService` (app/services/job_service.py)
defines no attribute `set_download_info`, so the attribute lookup itself
raises. -/
def SET_DOWNLOAD_INFO_ERROR : String :=
  "type object 'JobService' has no attribute 'set_download_info'"

/-- Outcome of one `generate_batch_certificates` call: the value returned or
the exception re-raised, the indices of rows whose output file was written,
and the job record after every `update_progress` call made during the call. -/
structure BatchOutcome where
  result : Except String Unit
  outputs : List Nat
  job : JobStatus
  deriving Repr

/-- The `except` handler of `generate_batch_certificates`: one failed
`update_progress(job_id, False, str(e))`, then `raise`. -/
def pipelineFail (job : JobStatus) (outs : List Nat) (msg : String) : BatchOutcome :=
  { result := .error msg
    outputs := outs
    job := update_progress job false (some msg) }

/-- The per-row `update_progress` arguments produced by the row loop: each
row task reports exactly once, success with no error message or failure with
`str(e)` (modelled as a fixed message). -/
def rowOps (mapping : Row) (rows : List Row) (saveOk : Nat → Bool) :
    List (Bool × Option String) :=
  rows.enum.map (fun p =>
    let ok := rowTask mapping p.2 (saveOk p.1)
    (ok, if ok then none else some "row failed"))

/-- `ParallelCertificateGenerator.generate_batch_certificates`.
Pipeline checks in source order: CSV read, empty CSV, empty placeholder map,
template image load.  Then every row runs (sub-batching bounds concurrency
only; each row task reports exactly one progress update, in row order here —
the job counters are order-independent).  After the row loop the epilogue
builds the streaming ZIP and then calls the undefined
`JobService.set_download_info`, so the call always ends in the `except`
handler: one more failed update, and the exception is re-raised. -/
def generate_batch_certificates (job : JobStatus)
    (csvData : Option (List Row)) (placeholders : List String)
    (templateOk : Bool) (mapping : Row) (saveOk : Nat → Bool)
    (zipOk : Bool) : BatchOutcome :=
  match csvData with
  | none => pipelineFail job [] "CSV read error"
  | some rows =>
    if rows.isEmpty then
      pipelineFail job [] "No data found in CSV file"
    else if placeholders.isEmpty then
      pipelineFail job [] "No placeholders detected in template"
    else if !templateOk then
      pipelineFail job [] "template image error"
    else
      let job1 := applyUpdates job (rowOps mapping rows saveOk)
      let outs := (rows.enum.filter (fun p => rowTask mapping p.2 (saveOk p.1))).map (·.1)
      let msg := if zipOk then SET_DOWNLOAD_INFO_ERROR else "ZIP creation error"
      pipelineFail job1 outs msg

/-! ## TemplateCache (app/utils/template_cache.py)

Keys are abstract (`_get_cache_key` hashes path+mtime; the claims below are
about capacity, TTL and LRU behaviour, not about the hash).  One ordered
list models both `_cache` and `_access_times`: the two dicts are always
updated with the same keys, so they share insertion order, and CPython dicts
iterate in insertion order with in-place value updates keeping a key's
position.  Timestamps are abstract clock values in the same unit as
`ttl_hours`; `datetime.now()` is passed in as `now` and only ever compared
by subtraction, with `now - access` truncated at zero as for a clock that
never runs backwards. -/

structure CacheEntry where
  key : Nat
  access : Nat
  data : Nat
  deriving Repr, DecidableEq

structure TemplateCache where
  max_size : Nat
  ttl : Nat
  entries : List CacheEntry
  deriving Repr, DecidableEq

def findEntry (k : Nat) (es : List CacheEntry) : Option CacheEntry :=
  es.find? (fun e => e.key = k)

/-- `TemplateCache._is_expired`: the age is measured from the entry's
**last-access** timestamp (`self._access_times[cache_key]`), and the entry is
expired iff `age > timedelta(hours=self.ttl_hours)` (strict).  A key absent
from `_access_times` counts as expired. -/
def is_expired (c : TemplateCache) (now k : Nat) : Bool :=
  match findEntry k c.entries with
  | none => true
  | some e => decide (now - e.access > c.ttl)

/-- `TemplateCache._evict`: `pop` the key from both dicts. -/
def evictKey (k : Nat) (es : List CacheEntry) : List CacheEntry :=
  es.filter (fun e => e.key ≠ k)

/-- First entry with the minimal access time:
`min(self._access_times.keys(), key=lambda k: self._access_times[k])`
returns the first minimal key in iteration order. -/
def lruEntry : List CacheEntry → Option CacheEntry
  | [] => none
  | e :: es => some (es.foldl (fun best x => if x.access < best.access then x else best) e)

/-- `TemplateCache._evict_if_needed`: when the cache holds `max_size` or more
entries, evict the least-recently-accessed one.  (With `max_size = 0` and an
empty cache the Python `min` over an empty sequence would raise; the claims
checked here assume `max_size ≥ 1`, as does the constructor default 100.) -/
def evict_if_needed (c : TemplateCache) : TemplateCache :=
  if c.entries.length ≥ c.max_size then
    match lruEntry c.entries with
    | some e => { c with entries := evictKey e.key c.entries }
    | none => c
  else c

/-- Refresh a present key's access time in place
(`self._access_times[cache_key] = datetime.now()` on a hit). -/
def touch (k now : Nat) : List CacheEntry → List CacheEntry
  | [] => []
  | e :: es => if e.key = k then { e with access := now } :: es else e :: touch k now es

/-- Store a payload under a key: in-place update for a present key, append
for a new one (Python dict assignment). -/
def storeEntry (k now d : Nat) : List CacheEntry → List CacheEntry
  | [] => [⟨k, now, d⟩]
  | e :: es => if e.key = k then ⟨k, now, d⟩ :: es else e :: storeEntry k now d es

/-- `TemplateCache.get` at clock value `now`: present and unexpired is a hit
whose access time is refreshed to `now`; present but expired is evicted and
is a miss; absent is a miss. -/
def cacheGet (c : TemplateCache) (now k : Nat) : Option Nat × TemplateCache :=
  match findEntry k c.entries with
  | some e =>
    if is_expired c now k then
      (none, { c with entries := evictKey k c.entries })
    else
      (some e.data, { c with entries := touch k now c.entries })
  | none => (none, c)

/-- `TemplateCache.set` at clock value `now`: `_evict_if_needed`, then store
the payload and stamp the access time. -/
def cacheSet (c : TemplateCache) (now k d : Nat) : TemplateCache :=
  let c1 := evict_if_needed c
  { c1 with entries := storeEntry k now d c1.entries }

/-- A concrete `max_size = 2` cache history: template 1 inserted at time 0,
template 2 at time 1, template 1 touched by a hit at time 2 — so template 2
is now the least-recently-used entry. -/
def lruDemoCache : TemplateCache :=
  (cacheGet (cacheSet (cacheSet ⟨2, 24, []⟩ 0 1 10) 1 2 20) 2 1).2

/-! ## AdvancedPlaceholderService (app/services/placeholder_advanced.py) -/

/-- Characters kept by `re.sub(r"[^A-Za-z0-9_]", "", ...)`. -/
def isWordChar (c : Char) : Bool :=
  c.isAlpha || c.isDigit || c = '_'

/-- `re.sub(r"\s+", "_", ...)`: each maximal whitespace run becomes one
underscore.  The flag records whether the previous character was part of a
whitespace run whose `_` has already been emitted. -/
def collapseWsAux : Bool → List Char → List Char
  | _, [] => []
  | inWs, c :: cs =>
    if c.isWhitespace then
      if inWs then collapseWsAux true cs else '_' :: collapseWsAux true cs
    else c :: collapseWsAux false cs

def collapseWs (l : List Char) : List Char := collapseWsAux false l

/-- `str.strip()`: drop whitespace from both ends.  (Python's notion of
whitespace is a superset of `Char.isWhitespace`; the difference touches only
exotic Unicode whitespace, on which no claim here depends.) -/
def stripWs (l : List Char) : List Char :=
  ((l.dropWhile Char.isWhitespace).reverse.dropWhile Char.isWhitespace).reverse

/-- `AdvancedPlaceholderService._normalize_key`: strip, collapse whitespace
runs to `_`, drop the remaining non-word characters, and uppercase — with
`""` returned for an empty cleaned key (before uppercasing, as in source). -/
def normalize_key (raw : String) : String :=
  let cleaned := (collapseWs (stripWs raw.data)).filter isWordChar
  if cleaned.isEmpty then "" else String.mk (cleaned.map Char.toUpper)

/-- Pixel rectangle `{left, top, width, height}`. -/
structure Box where
  left : Nat
  top : Nat
  width : Nat
  height : Nat
  deriving Repr, DecidableEq

/-- One OCR token observation that matched
`PLACEHOLDER_REGEX = \{\{\s*([A-Za-z0-9_\- ]+?)\s*\}\}`: the token's
confidence (`int(float(conf))`), the captured key, the matched text, and the
token box the engine reported.  A detection run's stream lists every match
from every preprocessing variant and page-segmentation pass in scan order,
already filtered to non-empty token text (`if not raw_text: continue`). -/
structure Obs where
  conf : Int
  rawKey : String
  rawToken : String
  left : Nat
  top : Nat
  width : Nat
  height : Nat
  deriving Repr, DecidableEq

/-- The pixel query behind `_tighten_bbox`:
`crop → convert("L") → point(threshold) → getbbox()` on the template image.
Given the crop rectangle (left, top, right, bottom) it returns the ink
content box in crop-relative coordinates, or `none` for a blank crop. -/
abbrev InkOracle := Nat → Nat → Nat → Nat → Option (Nat × Nat × Nat × Nat)

/-- `AdvancedPlaceholderService._tighten_bbox` with `margin = 1` (source
default): crop the box clamped to the image, query the ink box, and shrink
to it plus the margin; every degenerate case returns the box unchanged.
`max(x - 1, 0)` is Nat truncated subtraction. -/
def tighten_bbox (W H : Nat) (ink : InkOracle) (b : Box) : Box :=
  if b.width = 0 || b.height = 0 then b
  else
    let l := b.left
    let t := b.top
    let r := min (l + b.width) W
    let bo := min (t + b.height) H
    if r ≤ l || bo ≤ t then b
    else
      match ink l t r bo with
      | none => b
      | some (cl, ct, cr, cb) =>
        let nl := l + cl - 1
        let nt := t + ct - 1
        let nr := min (l + cr + 1) W
        let nb := min (t + cb + 1) H
        if nr ≤ nl || nb ≤ nt then b
        else ⟨nl, nt, nr - nl, nb - nt⟩

/-- A detected placeholder record (`_build_placeholder_record`): the
tightened box (duplicated in the flat fields and the `bbox` sub-object), the
observation's confidence, the raw matched text and key, and the normalized
key. -/
structure PRecord where
  left : Nat
  top : Nat
  width : Nat
  height : Nat
  conf : Int
  text : String
  raw_key : String
  normalized_key : String
  bbox : Box
  deriving Repr, DecidableEq

def MIN_CONFIDENCE : Int := 60

def build_placeholder_record (W H : Nat) (ink : InkOracle) (o : Obs)
    (nk : String) : PRecord :=
  let tb := tighten_bbox W H ink ⟨o.left, o.top, o.width, o.height⟩
  { left := tb.left, top := tb.top, width := tb.width, height := tb.height
    conf := o.conf, text := o.rawToken, raw_key := o.rawKey
    normalized_key := nk, bbox := tb }

/-- The `placeholders` dict in insertion order.  `mapInsert` is dict
assignment: replace in place for a present key, append for a new one. -/
def mapInsert (k : String) (r : PRecord) :
    List (String × PRecord) → List (String × PRecord)
  | [] => [(k, r)]
  | p :: ps => if p.1 = k then (k, r) :: ps else p :: mapInsert k r ps

def lookupPh (k : String) (m : List (String × PRecord)) : Option PRecord :=
  (m.find? (fun p => p.1 = k)).map (·.2)

/-- One iteration of the detection loop body for one regex match: skip
confidences below `MIN_CONFIDENCE`, skip an empty normalized key, and
record/replace only when the new confidence strictly exceeds the stored one
(`if normalized_key in placeholders and confidence <= ...: continue`). -/
def detectStep (W H : Nat) (ink : InkOracle) (m : List (String × PRecord))
    (o : Obs) : List (String × PRecord) :=
  if o.conf < MIN_CONFIDENCE then m
  else
    let nk := normalize_key o.rawKey
    if nk = "" then m
    else
      match lookupPh nk m with
      | some r =>
        if o.conf ≤ r.conf then m
        else mapInsert nk (build_placeholder_record W H ink o nk) m
      | none => mapInsert nk (build_placeholder_record W H ink o nk) m

/-- The full OCR detection loop of `detect_all_placeholders` over the
flattened observation stream. -/
def detectFold (W H : Nat) (ink : InkOracle) (stream : List Obs) :
    List (String × PRecord) :=
  stream.foldl (detectStep W H ink) []

/-- `_detect_fallback_placeholders`.  The three generic records, or `{}` when
the template image cannot be opened.  Python computes coordinates as
`int(dimension * fraction)` in binary floating point; this model truncates
the exact rational `dim * num / den`.  The two can differ by one pixel where
the float product falls just under an integer (`int(1000 * 0.3) = 299`); no
fact settled below depends on a fallback coordinate, only on the fallback's
confidence value, which the source fixes at the integer literal 50. -/
def fallback_placeholders (imageOk : Option (Nat × Nat)) :
    List (String × PRecord) :=
  match imageOk with
  | none => []
  | some (w, h) =>
    [("NAME",
      { left := w * 25 / 100, top := h * 40 / 100
        width := w * 50 / 100, height := h * 10 / 100
        conf := 50, text := "{{NAME}}", raw_key := "NAME"
        normalized_key := "NAME"
        bbox := ⟨w * 25 / 100, h * 40 / 100, w * 50 / 100, h * 10 / 100⟩ }),
     ("ROLE",
      { left := w * 25 / 100, top := h * 55 / 100
        width := w * 50 / 100, height := h * 8 / 100
        conf := 50, text := "{{ROLE}}", raw_key := "ROLE"
        normalized_key := "ROLE"
        bbox := ⟨w * 25 / 100, h * 55 / 100, w * 50 / 100, h * 8 / 100⟩ }),
     ("DATE",
      { left := w * 60 / 100, top := h * 75 / 100
        width := w * 30 / 100, height := h * 8 / 100
        conf := 50, text := "{{DATE}}", raw_key := "DATE"
        normalized_key := "DATE"
        bbox := ⟨w * 60 / 100, h * 75 / 100, w * 30 / 100, h * 8 / 100⟩ })]

/-- `AdvancedPlaceholderService.detect_all_placeholders`: the fallback map
when tesseract is unavailable; else the cached placeholder map when the
cache holds a non-empty one; else the fallback when the template image
cannot be opened (the `except` branch calls
`_detect_fallback_placeholders`, which re-opens the image and so also
fails, returning `{}`); else the OCR detection fold.  The final
`cache_template_metadata` write does not change the returned map. -/
def detect_all_placeholders (tesseractAvailable : Bool)
    (cached : Option (List (String × PRecord))) (imageOk : Option (Nat × Nat))
    (ink : InkOracle) (stream : List Obs) : List (String × PRecord) :=
  if !tesseractAvailable then fallback_placeholders imageOk
  else
    let go :=
      match imageOk with
      | none => fallback_placeholders none
      | some (w, h) => detectFold w h ink stream
    match cached with
    | some m => if m.isEmpty then go else m
    | none => go

/-- The qualifying observations for a normalized key: confidence at least
`MIN_CONFIDENCE` and key normalizing to `k`, in stream order. -/
def qualifying (k : String) (stream : List Obs) : List Obs :=
  stream.filter (fun o => MIN_CONFIDENCE ≤ o.conf && normalize_key o.rawKey == k)

/-- First observation attaining the maximal confidence of a list (replace
only on strictly greater confidence). -/
def bestObs : List Obs → Option Obs
  | [] => none
  | o :: os => some (os.foldl (fun best x => if best.conf < x.conf then x else best) o)

/-- The per-key effect of the dedupe rule, for the proof of the claim about
`detect_all_placeholders`: fold the qualifying observations over the current
record for the key, replacing only on strictly greater confidence. -/
def combinePh (W H : Nat) (ink : InkOracle) (k : String) :
    Option PRecord → List Obs → Option PRecord
  | r, [] => r
  | none, o :: os =>
    combinePh W H ink k (some (build_placeholder_record W H ink o k)) os
  | some r, o :: os =>
    if o.conf ≤ r.conf then combinePh W H ink k (some r) os
    else combinePh W H ink k (some (build_placeholder_record W H ink o k)) os

/-- A small concrete observation stream: the key `name` is seen three times
across passes, at confidences 70, 85 and 85. -/
def demoStream : List Obs :=
  [⟨70, "name", "{{name}}", 10, 10, 50, 20⟩,
   ⟨85, "name", "{{name}}", 12, 11, 48, 19⟩,
   ⟨85, "name", "{{name}}", 30, 40, 44, 18⟩]

/-- The OCR engine reports token boxes inside the scanned image. -/
def obsInBounds (W H : Nat) (o : Obs) : Prop :=
  o.left + o.width ≤ W ∧ o.top + o.height ≤ H

instance (W H : Nat) (o : Obs) : Decidable (obsInBounds W H o) := by
  unfold obsInBounds
  infer_instance

/-- A box lies within the image bounds (`0 ≤ left, top` holds by the Nat
representation). -/
def boxInBounds (W H : Nat) (b : Box) : Prop :=
  b.left + b.width ≤ W ∧ b.top + b.height ≤ H

/-! ## PDFService.render_name_on_image font sizing
(app/services/pdf_service.py) -/

/-- Off-screen text measurement: width and height of
`trial_draw.textbbox((0, 0), text, font)` at a given font size — an external
PIL/font capability, for one fixed text. -/
abbrev MeasureOracle := Nat → Nat × Nat

/-- The fit test of `derive_font_size`'s loop:
`(bbox_width <= 0 or text_width <= bbox_width * 0.97) and
 (bbox_height <= 0 or text_height <= bbox_height * 0.95)`.
The float thresholds are modelled by the exact rationals 97/100 and 95/100;
the two tests agree except exactly on the rational boundary, on which no
fact settled below depends. -/
def fitsAt (measure : MeasureOracle) (bw bh size : Nat) : Bool :=
  (bw = 0 || (measure size).1 * 100 ≤ bw * 97) &&
  (bh = 0 || (measure size).2 * 100 ≤ bh * 95)

/-- The descending loop `while size >= 8: ... size -= 1` / `return 8`, with
explicit fuel (one unit per iteration; any fuel above the starting size is
enough, since the loop ends once `size < 8`). -/
def fitLoop (measure : MeasureOracle) (bw bh : Nat) : Nat → Nat → Nat
  | 0, _ => 8
  | fuel + 1, size =>
    if size < 8 then 8
    else if fitsAt measure bw bh size then size
    else fitLoop measure bw bh fuel (size - 1)

/-- `derive_font_size` when a bounding box is present: start from
`max(int(bbox_height * 0.9), 12)` (the float product modelled as the exact
`9 * bh / 10`) and descend to the first fitting size, floor 8. -/
def derive_font_size (measure : MeasureOracle) (bw bh : Nat) : Nat :=
  let start := max (bh * 9 / 10) 12
  fitLoop measure bw bh (start + 1) start

/-- The x origin of the centered draw:
`x = bbox_left + (bbox_width - text_width) // 2` (Python floor division). -/
def drawOriginX (bboxLeft bw tw : Int) : Int :=
  bboxLeft + Int.fdiv (bw - tw) 2

theorem update_progress_total (s : JobStatus) (b : Bool) (e : Option String) :
    (update_progress s b e).total_items = s.total_items := by
  unfold update_progress
  cases b <;> cases e <;> simp <;> split <;> rfl

theorem update_progress_processed (s : JobStatus) (b : Bool) (e : Option String) :
    (update_progress s b e).processed_items = s.processed_items + 1 := by
  unfold update_progress
  cases b <;> cases e <;> simp <;> split <;> rfl

theorem update_progress_successful (s : JobStatus) (b : Bool) (e : Option String) :
    (update_progress s b e).successful_items =
      s.successful_items + (if b then 1 else 0) := by
  unfold update_progress
  cases b <;> cases e <;> simp <;> split <;> rfl

theorem update_progress_failed (s : JobStatus) (b : Bool) (e : Option String) :
    (update_progress s b e).failed_items =
      s.failed_items + (if b then 0 else 1) := by
  unfold update_progress
  cases b <;> cases e <;> simp <;> split <;> rfl

theorem update_progress_status (s : JobStatus) (b : Bool) (e : Option String) :
    (update_progress s b e).status =
      if s.processed_items + 1 ≥ s.total_items then
        (if s.failed_items + (if b then 0 else 1) = 0 then "completed"
         else "completed_with_errors")
      else "processing" := by
  unfold update_progress
  cases b <;> cases e <;> simp <;> split <;> simp <;> omega

theorem countFails_cons (op : Bool × Option String) (rest : List (Bool × Option String)) :
    countFails (op :: rest) = (if op.1 then 0 else 1) + countFails rest := by
  unfold countFails
  cases hb : op.1 <;> simp [hb, Nat.add_comm]

theorem countSuccs_cons (op : Bool × Option String) (rest : List (Bool × Option String)) :
    countSuccs (op :: rest) = (if op.1 then 1 else 0) + countSuccs rest := by
  unfold countSuccs
  cases hb : op.1 <;> simp [hb, Nat.add_comm]

/-- Counter characterization of a run of `update_progress` calls from an
arbitrary starting state. -/
theorem applyUpdates_counters (ops : List (Bool × Option String)) (s : JobStatus) :
    (applyUpdates s ops).total_items = s.total_items ∧
    (applyUpdates s ops).processed_items = s.processed_items + ops.length ∧
    (applyUpdates s ops).successful_items = s.successful_items + countSuccs ops ∧
    (applyUpdates s ops).failed_items = s.failed_items + countFails ops := by
  induction ops generalizing s with
  | nil => simp [applyUpdates, countSuccs, countFails]
  | cons op rest ih =>
    have h := ih (update_progress s op.1 op.2)
    simp only [applyUpdates, List.foldl_cons] at h ⊢
    refine ⟨?_, ?_, ?_, ?_⟩
    · rw [h.1, update_progress_total]
    · rw [h.2.1, update_progress_processed, List.length_cons]; omega
    · rw [h.2.2.1, update_progress_successful, countSuccs_cons]
      cases hb : op.1 <;> simp [hb] <;> omega
    · rw [h.2.2.2, update_progress_failed, countFails_cons]
      cases hb : op.1 <;> simp [hb] <;> omega

/-- Status characterization: after at least one update from state `s`, the
status is determined by the final counters. -/
theorem applyUpdates_status (ops : List (Bool × Option String)) (s : JobStatus)
    (h : ops ≠ []) :
    (applyUpdates s ops).status =
      if s.processed_items + ops.length ≥ s.total_items then
        (if s.failed_items + countFails ops = 0 then "completed"
         else "completed_with_errors")
      else "processing" := by
  induction ops generalizing s with
  | nil => exact absurd rfl h
  | cons op rest ih =>
    by_cases hr : rest = []
    · subst hr
      simp only [applyUpdates, List.foldl_cons, List.foldl_nil]
      rw [update_progress_status, countFails_cons]
      cases hb : op.1 <;>
        (try simp only [hb, List.length_cons, List.length_nil, countFails, List.filter_nil,
          Bool.not_true, Bool.not_false]) <;>
        split_ifs <;> first | rfl | omega
    · have h2 := ih (update_progress s op.1 op.2) hr
      simp only [applyUpdates, List.foldl_cons] at h2 ⊢
      rw [h2, update_progress_total, update_progress_processed, update_progress_failed,
        countFails_cons, List.length_cons]
      cases hb : op.1 <;> (try simp only [hb]) <;>
        split_ifs <;> first | rfl | omega

theorem countSuccs_add_countFails (ops : List (Bool × Option String)) :
    countSuccs ops + countFails ops = ops.length := by
  induction ops with
  | nil => simp [countSuccs, countFails]
  | cons op rest ih =>
    rw [countSuccs_cons, countFails_cons, List.length_cons]
    cases hb : op.1 <;> simp [hb] <;> omega

theorem runJob_spec (total : Nat) (ops : List (Bool × Option String)) :
    (runJob total ops).total_items = total ∧
    (runJob total ops).processed_items = ops.length ∧
    (runJob total ops).successful_items = countSuccs ops ∧
    (runJob total ops).failed_items = countFails ops := by
  have h := applyUpdates_counters ops (create_job total)
  simpa [runJob, create_job] using h

theorem runJob_status (total : Nat) (ops : List (Bool × Option String))
    (h : ops ≠ []) :
    (runJob total ops).status =
      if ops.length ≥ total then
        (if countFails ops = 0 then "completed" else "completed_with_errors")
      else "processing" := by
  have h2 := applyUpdates_status ops (create_job total) h
  simpa [runJob, create_job] using h2

theorem runJob_terminal_ge (total : Nat) (ops : List (Bool × Option String))
    (h : isTerminal (runJob total ops)) : ops.length ≥ total := by
  by_cases hn : ops = []
  · subst hn
    simp only [isTerminal, runJob, applyUpdates, List.foldl_nil, create_job] at h
    rcases h with h1 | h1 <;> exact absurd h1 (by decide)
  · by_contra hlt
    rw [isTerminal, runJob_status total ops hn, if_neg hlt] at h
    rcases h with h1 | h1 <;> exact absurd h1 (by decide)

theorem runJob_cwe (total : Nat) (ops : List (Bool × Option String))
    (h : (runJob total ops).status = "completed_with_errors") :
    ops.length ≥ total ∧ countFails ops ≠ 0 := by
  by_cases hn : ops = []
  · subst hn
    simp only [runJob, applyUpdates, List.foldl_nil, create_job] at h
    exact absurd h (by decide)
  · rw [runJob_status total ops hn] at h
    by_cases h1 : ops.length ≥ total
    · rw [if_pos h1] at h
      by_cases h2 : countFails ops = 0
      · rw [if_pos h2] at h; exact absurd h (by decide)
      · exact ⟨h1, h2⟩
    · rw [if_neg h1] at h; exact absurd h (by decide)

theorem runJob_completed (total : Nat) (ops : List (Bool × Option String))
    (h : (runJob total ops).status = "completed") :
    ops.length ≥ total ∧ countFails ops = 0 := by
  by_cases hn : ops = []
  · subst hn
    simp only [runJob, applyUpdates, List.foldl_nil, create_job] at h
    exact absurd h (by decide)
  · rw [runJob_status total ops hn] at h
    by_cases h1 : ops.length ≥ total
    · rw [if_pos h1] at h
      by_cases h2 : countFails ops = 0
      · exact ⟨h1, h2⟩
      · rw [if_neg h2] at h; exact absurd h (by decide)
    · rw [if_neg h1] at h; exact absurd h (by decide)

/-- The `except` handler's effect on the job record: one failed
`update_progress`, so counters advance by one failure and the resulting
status is `"processing"` or `"completed_with_errors"` — never `"failed"`. -/
theorem pipelineFail_job (j : JobStatus) (outs : List Nat) (msg : String) :
    (pipelineFail j outs msg).job = update_progress j false (some msg) := rfl

theorem pipelineFail_spec (j : JobStatus) (outs : List Nat) (msg : String) :
    (pipelineFail j outs msg).result = .error msg ∧
    (pipelineFail j outs msg).outputs = outs ∧
    (pipelineFail j outs msg).job.processed_items = j.processed_items + 1 ∧
    (pipelineFail j outs msg).job.failed_items = j.failed_items + 1 ∧
    ((pipelineFail j outs msg).job.status = "processing" ∨
      (pipelineFail j outs msg).job.status = "completed_with_errors") := by
  refine ⟨rfl, rfl, ?_, ?_, ?_⟩
  · exact update_progress_processed j false (some msg)
  · simpa using update_progress_failed j false (some msg)
  · rw [pipelineFail_job, update_progress_status]
    by_cases h1 : j.processed_items + 1 ≥ j.total_items
    · rw [if_pos h1, if_neg (by simp)]
      right; rfl
    · rw [if_neg h1]; left; rfl

/-- **C1** (corrected).  A pipeline-level failure (unreadable CSV, empty CSV,
zero placeholders, unreadable template) makes `generate_batch_certificates`
record exactly one failed progress update, claim no output, and re-raise —
but the job's status becomes `"processing"` or `"completed_with_errors"`
depending on the counters, never `"failed"`: neither `JobService` nor the
generator ever assigns the status `"failed"`. -/
theorem C1_pipeline_failure (job : JobStatus) (csvData : Option (List Row))
    (placeholders : List String) (templateOk : Bool) (mapping : Row)
    (saveOk : Nat → Bool) (zipOk : Bool)
    (hfail : csvData = none ∨ csvData = some [] ∨ placeholders = [] ∨
      templateOk = false) :
    (∃ msg, (generate_batch_certificates job csvData placeholders templateOk
        mapping saveOk zipOk).result = .error msg) ∧
    (generate_batch_certificates job csvData placeholders templateOk
        mapping saveOk zipOk).outputs = [] ∧
    (generate_batch_certificates job csvData placeholders templateOk
        mapping saveOk zipOk).job.processed_items = job.processed_items + 1 ∧
    (generate_batch_certificates job csvData placeholders templateOk
        mapping saveOk zipOk).job.failed_items = job.failed_items + 1 ∧
    (generate_batch_certificates job csvData placeholders templateOk
        mapping saveOk zipOk).job.status ≠ "failed" ∧
    ((generate_batch_certificates job csvData placeholders templateOk
        mapping saveOk zipOk).job.status = "processing" ∨
      (generate_batch_certificates job csvData placeholders templateOk
        mapping saveOk zipOk).job.status = "completed_with_errors") := by
  have key : ∃ msg, generate_batch_certificates job csvData placeholders
      templateOk mapping saveOk zipOk = pipelineFail job [] msg := by
    rcases hfail with h | h | h | h
    · subst h; exact ⟨_, rfl⟩
    · subst h; exact ⟨_, rfl⟩
    · subst h
      match csvData with
      | none => exact ⟨_, rfl⟩
      | some [] => exact ⟨_, rfl⟩
      | some (r :: rs) => exact ⟨_, rfl⟩
    · subst h
      match csvData with
      | none => exact ⟨_, rfl⟩
      | some [] => exact ⟨_, rfl⟩
      | some (r :: rs) =>
        match placeholders with
        | [] => exact ⟨_, rfl⟩
        | p :: ps => exact ⟨_, rfl⟩
  obtain ⟨msg, hEq⟩ := key
  rw [hEq]
  obtain ⟨h1, h2, h3, h4, h5⟩ := pipelineFail_spec job [] msg
  refine ⟨⟨msg, h1⟩, h2, h3, h4, ?_, h5⟩
  rcases h5 with h6 | h6 <;> rw [h6] <;> decide

/-- **C1 counterexample**: a job created with 3 total items whose CSV turns
out empty.  The claim says a subsequent `get_job_status` reports status
`"failed"`; the code leaves the job at `"processing"` (one failed update out
of three expected). -/
theorem C1_counterexample :
    (generate_batch_certificates (create_job 3) (some []) ["NAME"] true []
      (fun _ => true) true).job.status = "processing" ∧
    (generate_batch_certificates (create_job 3) (some []) ["NAME"] true []
      (fun _ => true) true).job.status ≠ "failed" ∧
    (generate_batch_certificates (create_job 3) (some []) ["NAME"] true []
      (fun _ => true) true).result = .error "No data found in CSV file" := by
  refine ⟨rfl, by decide, rfl⟩

theorem C1_witness :
    (∃ msg, (generate_batch_certificates (create_job 3) (some []) ["NAME"]
      true [] (fun _ => true) true).result = .error msg) ∧
    (generate_batch_certificates (create_job 3) (some []) ["NAME"] true []
      (fun _ => true) true).job.status ≠ "failed" :=
  ⟨(C1_pipeline_failure (create_job 3) (some []) ["NAME"] true []
      (fun _ => true) true (Or.inr (Or.inl rfl))).1,
   (C1_pipeline_failure (create_job 3) (some []) ["NAME"] true []
      (fun _ => true) true (Or.inr (Or.inl rfl))).2.2.2.2.1⟩

/-- **C2** (confirmed).  When the pipeline checks pass and every row is
processed, the epilogue's `JobService.set_download_info` call raises
`AttributeError` (no such attribute exists on `JobService`), the handler
records one extra failed update and the call re-raises: the job ends with
`processed_items = total_items + 1` and status `"completed_with_errors"`,
for every per-row outcome — including all rows succeeding. -/
theorem C2_set_download_info_error (rows : List Row) (placeholders : List String)
    (mapping : Row) (saveOk : Nat → Bool)
    (hr : rows ≠ []) (hp : placeholders ≠ []) :
    (generate_batch_certificates (create_job rows.length) (some rows)
        placeholders true mapping saveOk true).result =
      .error SET_DOWNLOAD_INFO_ERROR ∧
    (generate_batch_certificates (create_job rows.length) (some rows)
        placeholders true mapping saveOk true).job.total_items = rows.length ∧
    (generate_batch_certificates (create_job rows.length) (some rows)
        placeholders true mapping saveOk true).job.processed_items =
      rows.length + 1 ∧
    (generate_batch_certificates (create_job rows.length) (some rows)
        placeholders true mapping saveOk true).job.status =
      "completed_with_errors" := by
  match rows, hr with
  | r :: rs, _ =>
    match placeholders, hp with
    | p :: ps, _ =>
      have hred : generate_batch_certificates (create_job (r :: rs).length)
          (some (r :: rs)) (p :: ps) true mapping saveOk true =
          pipelineFail
            (applyUpdates (create_job (r :: rs).length)
              (rowOps mapping (r :: rs) saveOk))
            (((r :: rs).enum.filter
              (fun q => rowTask mapping q.2 (saveOk q.1))).map (·.1))
            SET_DOWNLOAD_INFO_ERROR := rfl
      rw [hred]
      have hlen : (rowOps mapping (r :: rs) saveOk).length = (r :: rs).length := by
        simp [rowOps]
      obtain ⟨ht, hpr, -, -⟩ :=
        applyUpdates_counters (rowOps mapping (r :: rs) saveOk)
          (create_job (r :: rs).length)
      rw [show (create_job (r :: rs).length).total_items = (r :: rs).length from rfl] at ht
      rw [show (create_job (r :: rs).length).processed_items = 0 from rfl, hlen] at hpr
      refine ⟨rfl, ?_, ?_, ?_⟩
      · rw [pipelineFail_job, update_progress_total, ht]
      · rw [pipelineFail_job, update_progress_processed, hpr]; omega
      · rw [pipelineFail_job, update_progress_status, hpr, ht]
        rw [if_pos (by omega), if_neg (by simp)]

theorem C2_witness :
    (generate_batch_certificates (create_job 1) (some [[("name", "Alice")]])
        ["NAME"] true [] (fun _ => true) true).result =
      .error SET_DOWNLOAD_INFO_ERROR ∧
    (generate_batch_certificates (create_job 1) (some [[("name", "Alice")]])
        ["NAME"] true [] (fun _ => true) true).job.processed_items = 2 ∧
    (generate_batch_certificates (create_job 1) (some [[("name", "Alice")]])
        ["NAME"] true [] (fun _ => true) true).job.status =
      "completed_with_errors" := by
  have h := C2_set_download_info_error [[("name", "Alice")]] ["NAME"] []
    (fun _ => true) (List.cons_ne_nil _ _) (List.cons_ne_nil _ _)
  exact ⟨h.1, h.2.2.1, h.2.2.2⟩

/-- **C3** (corrected).  At a terminal state: all-success histories end
`"completed"`, any failure ends `"completed_with_errors"`, and
`processed_items ≥ total_items` — but equality can fail, since
`update_progress` keeps counting past `total_items` (the generator's
epilogue failure does exactly that, see C2). -/
theorem C3_terminal_completion (total : Nat) (ops : List (Bool × Option String)) :
    (isTerminal (runJob total ops) →
      (runJob total ops).processed_items ≥ (runJob total ops).total_items) ∧
    (isTerminal (runJob total ops) → countFails ops = 0 →
      (runJob total ops).status = "completed") ∧
    (isTerminal (runJob total ops) → countFails ops ≠ 0 →
      (runJob total ops).status = "completed_with_errors") := by
  by_cases hn : ops = []
  · subst hn
    have hq : (runJob total []).status = "queued" := rfl
    have hnt : ¬ isTerminal (runJob total []) := by
      rw [isTerminal, hq]
      rintro (h1 | h1) <;> exact absurd h1 (by decide)
    exact ⟨fun h => absurd h hnt, fun h => absurd h hnt, fun h => absurd h hnt⟩
  · obtain ⟨ht, hp, -, -⟩ := runJob_spec total ops
    have hs := runJob_status total ops hn
    refine ⟨fun hterm => ?_, fun hterm hf => ?_, fun hterm hf => ?_⟩
    · rw [ht, hp]; exact runJob_terminal_ge total ops hterm
    · rw [hs, if_pos (runJob_terminal_ge total ops hterm), if_pos hf]
    · rw [hs, if_pos (runJob_terminal_ge total ops hterm), if_neg hf]

/-- **C3 counterexample**: a job with `total_items = 1` receiving two
successful updates reaches the terminal status `"completed"` with
`processed_items = 2 ≠ 1 = total_items`, refuting
`processed_items == total_items` at terminal states. -/
theorem C3_counterexample :
    isTerminal (runJob 1 [(true, none), (true, none)]) ∧
    (runJob 1 [(true, none), (true, none)]).processed_items ≠
      (runJob 1 [(true, none), (true, none)]).total_items := by
  exact ⟨by decide, by decide⟩

theorem C3_witness :
    isTerminal (runJob 1 [(false, some "e")]) ∧
    (runJob 1 [(false, some "e")]).status = "completed_with_errors" :=
  ⟨by decide,
    (C3_terminal_completion 1 [(false, some "e")]).2.2 (by decide) (by decide)⟩

/-- **C4** (confirmed).  In every reachable job record
`processed_items = successful_items + failed_items`, and each
`update_progress` call increments `processed_items` by exactly one and
exactly one of `successful_items` / `failed_items` by one (so
`processed_items` never decreases). -/
theorem C4_progress_invariant (total : Nat) (ops : List (Bool × Option String))
    (b : Bool) (e : Option String) :
    (runJob total ops).processed_items =
      (runJob total ops).successful_items + (runJob total ops).failed_items ∧
    (update_progress (runJob total ops) b e).processed_items =
      (runJob total ops).processed_items + 1 ∧
    (update_progress (runJob total ops) b e).successful_items =
      (runJob total ops).successful_items + (if b then 1 else 0) ∧
    (update_progress (runJob total ops) b e).failed_items =
      (runJob total ops).failed_items + (if b then 0 else 1) := by
  obtain ⟨-, h1, h2, h3⟩ := runJob_spec total ops
  refine ⟨?_, update_progress_processed _ _ _, update_progress_successful _ _ _,
    update_progress_failed _ _ _⟩
  rw [h1, h2, h3, countSuccs_add_countFails]

/-- **C5** (corrected).  The status never returns to `"queued"`, a terminal
state never returns to `"processing"`, and `"completed_with_errors"` is
absorbing — but `"completed"` is not: one further failed update moves a
`"completed"` job to `"completed_with_errors"` (and the generator's epilogue
failure does exactly that), so terminal states are not mutually stable as
claimed. -/
theorem C5_status_forward (total : Nat) (ops : List (Bool × Option String))
    (b : Bool) (e : Option String) :
    (update_progress (runJob total ops) b e).status ≠ "queued" ∧
    (isTerminal (runJob total ops) →
      isTerminal (update_progress (runJob total ops) b e)) ∧
    ((runJob total ops).status = "completed_with_errors" →
      (update_progress (runJob total ops) b e).status =
        "completed_with_errors") ∧
    ((runJob total ops).status = "completed" →
      (if b then (update_progress (runJob total ops) b e).status = "completed"
       else (update_progress (runJob total ops) b e).status =
        "completed_with_errors")) := by
  obtain ⟨ht, hp, -, hf⟩ := runJob_spec total ops
  have hst := update_progress_status (runJob total ops) b e
  refine ⟨?_, ?_, ?_, ?_⟩
  · rw [hst]; split_ifs <;> decide
  · intro hterm
    have hge := runJob_terminal_ge total ops hterm
    rw [isTerminal, hst, if_pos (by omega)]
    split_ifs <;> simp
  · intro hcwe
    obtain ⟨hge, hcf⟩ := runJob_cwe total ops hcwe
    rw [hst, if_pos (by omega), if_neg (by cases b <;> simp [hf, hcf])]
  · intro hc
    obtain ⟨hge, hcf⟩ := runJob_completed total ops hc
    cases b
    · rw [if_neg (by decide)]
      rw [hst, if_pos (by omega), if_neg (by simp)]
    · rw [if_pos rfl]
      rw [hst, if_pos (by omega), if_pos (by simp [hf, hcf])]

/-- **C5 counterexample**: a job with one expected item completes
successfully (terminal status `"completed"`), then one further failed update
moves it to the different terminal status `"completed_with_errors"` —
refuting that no sequence of operations moves a terminal state to a
different state. -/
theorem C5_counterexample :
    (runJob 1 [(true, none)]).status = "completed" ∧
    (update_progress (runJob 1 [(true, none)]) false (some "e")).status =
      "completed_with_errors" := by
  exact ⟨by decide, by decide⟩

theorem C5_witness :
    (runJob 1 [(false, some "x")]).status = "completed_with_errors" ∧
    (update_progress (runJob 1 [(false, some "x")]) true none).status =
      "completed_with_errors" :=
  ⟨by decide,
    (C5_status_forward 1 [(false, some "x")] true none).2.2.1 (by decide)⟩

theorem cacheSet_entries (c : TemplateCache) (now k d : Nat) :
    (cacheSet c now k d).entries = storeEntry k now d (evict_if_needed c).entries := rfl

theorem storeEntry_length_le (k now d : Nat) (es : List CacheEntry) :
    (storeEntry k now d es).length ≤ es.length + 1 := by
  induction es with
  | nil => simp [storeEntry]
  | cons e es ih =>
    simp only [storeEntry]
    by_cases h : e.key = k
    · rw [if_pos h]; simp
    · rw [if_neg h]; simpa using Nat.succ_le_succ ih

theorem evictKey_length_lt (k : Nat) (es : List CacheEntry) (e : CacheEntry)
    (he : e ∈ es) (hk : e.key = k) : (evictKey k es).length < es.length := by
  induction es with
  | nil => cases he
  | cons x xs ih =>
    rw [evictKey, List.filter_cons]
    rcases List.mem_cons.mp he with rfl | hmem
    · rw [if_neg (by simp [hk])]
      exact Nat.lt_succ_of_le (List.length_filter_le _ _)
    · by_cases hx : x.key ≠ k
      · rw [if_pos (by simp [hx])]
        simpa [evictKey] using ih hmem
      · rw [if_neg (by simp at hx ⊢; exact hx)]
        have := ih hmem
        rw [evictKey] at this
        simp only [List.length_cons]
        omega

theorem findEntry_evictKey_self (k : Nat) (es : List CacheEntry) :
    findEntry k (evictKey k es) = none := by
  induction es with
  | nil => rfl
  | cons x xs ih =>
    rw [evictKey, List.filter_cons]
    by_cases hx : x.key = k
    · rw [if_neg (by simp [hx])]
      rw [evictKey] at ih; exact ih
    · rw [if_pos (by simp [hx])]
      rw [evictKey] at ih
      simpa [findEntry, List.find?_cons, hx] using ih

theorem findEntry_storeEntry_ne (k q now d : Nat) (es : List CacheEntry)
    (h : q ≠ k) : findEntry q (storeEntry k now d es) = findEntry q es := by
  induction es with
  | nil =>
    simp [storeEntry, findEntry, List.find?_cons, Ne.symm h]
  | cons x xs ih =>
    simp only [storeEntry]
    by_cases hx : x.key = k
    · rw [if_pos hx]
      simp [findEntry, List.find?_cons, Ne.symm h, hx]
    · rw [if_neg hx]
      by_cases hq : x.key = q
      · simp [findEntry, List.find?_cons, hq]
      · simpa [findEntry, List.find?_cons, hq] using ih

theorem findEntry_touch (k now : Nat) (es : List CacheEntry) :
    findEntry k (touch k now es) =
      (findEntry k es).map (fun e => { e with access := now }) := by
  induction es with
  | nil => rfl
  | cons x xs ih =>
    simp only [touch]
    by_cases hx : x.key = k
    · rw [if_pos hx]
      simp [findEntry, List.find?_cons, hx]
    · rw [if_neg hx]
      simpa [findEntry, List.find?_cons, hx] using ih

theorem cacheGet_none (c : TemplateCache) (now q : Nat)
    (h : findEntry q c.entries = none) : (cacheGet c now q).1 = none := by
  unfold cacheGet
  rw [h]

theorem foldl_pick_mem (es : List CacheEntry) (b : CacheEntry) :
    es.foldl (fun best x => if x.access < best.access then x else best) b ∈ b :: es := by
  induction es generalizing b with
  | nil => simp
  | cons x xs ih =>
    rw [List.foldl_cons]
    rcases List.mem_cons.mp (ih (if x.access < b.access then x else b)) with h1 | h1
    · rw [h1]
      by_cases hc : x.access < b.access
      · rw [if_pos hc]; exact List.mem_cons_of_mem _ (List.mem_cons_self _ _)
      · rw [if_neg hc]; exact List.mem_cons_self _ _
    · exact List.mem_cons_of_mem _ (List.mem_cons_of_mem _ h1)

theorem lruEntry_mem (es : List CacheEntry) (e : CacheEntry)
    (h : lruEntry es = some e) : e ∈ es := by
  cases es with
  | nil => cases h
  | cons x xs =>
    rw [lruEntry] at h
    injection h with h
    rw [← h]
    exact foldl_pick_mem xs x

theorem lruEntry_isSome (es : List CacheEntry) (h : es ≠ []) :
    ∃ e, lruEntry es = some e := by
  cases es with
  | nil => exact absurd rfl h
  | cons x xs => exact ⟨_, rfl⟩

/-- **C6** (corrected).  `TemplateCache.get` at clock `now` hits exactly the
entries whose **last-access** timestamp is within `ttl`, and a hit refreshes
that timestamp to `now` — expiry is lazy but measured from last access, not
from a creation timestamp (the cache keeps no creation timestamp; the single
`_access_times` dict serves both expiry and LRU). -/
theorem C6_expiry_from_last_access (c : TemplateCache) (now k : Nat) :
    ((cacheGet c now k).1 =
      match findEntry k c.entries with
      | some e => if now - e.access ≤ c.ttl then some e.data else none
      | none => none) ∧
    (∀ e, findEntry k c.entries = some e → now - e.access ≤ c.ttl →
      findEntry k (cacheGet c now k).2.entries =
        some { e with access := now }) := by
  constructor
  · unfold cacheGet is_expired
    cases hf : findEntry k c.entries with
    | none => simp
    | some e =>
      by_cases h : now - e.access ≤ c.ttl
      · have hd : ¬ (now - e.access > c.ttl) := by omega
        simp [h, hd]
      · have hd : now - e.access > c.ttl := by omega
        simp [h, hd]
  · intro e hf h
    have hd : ¬ (now - e.access > c.ttl) := by omega
    unfold cacheGet is_expired
    rw [hf]
    simp only [hd, decide_eq_true_eq, if_false, decide_False]
    rw [if_neg (by simp [hd])]
    simpa [findEntry_touch, hf] using rfl

/-- **C6 counterexample**: `ttl_hours = 1`; an entry created at time 0 is
read at time 1 (a hit, refreshing its access time) and read again at time 2.
It is then older than the TTL measured from creation (2 − 0 > 1), so the
claim predicts a miss — but the code measures age from the refreshed
last-access time (2 − 1 ≤ 1) and still hits. -/
theorem C6_counterexample :
    (cacheSet ⟨100, 1, []⟩ 0 7 42).entries = [⟨7, 0, 42⟩] ∧
    ((cacheGet ((cacheGet (cacheSet ⟨100, 1, []⟩ 0 7 42) 1 7).2) 2 7).1 =
      some 42) ∧
    2 - 0 > 1 := by
  refine ⟨rfl, by decide, by decide⟩

theorem C6_witness :
    findEntry 7 ((cacheGet (cacheSet ⟨100, 1, []⟩ 0 7 42) 1 7).2).entries =
      some ⟨7, 1, 42⟩ :=
  (C6_expiry_from_last_access (cacheSet ⟨100, 1, []⟩ 0 7 42) 1 7).2
    ⟨7, 0, 42⟩ (by decide) (by decide)

/-- **C10** (confirmed).  `set` on a cache holding `max_size` entries first
evicts the entry with the oldest last-access time, so the cache never grows
beyond `max_size` entries, and a subsequent `get` for the evicted key
misses. -/
theorem C10_lru_eviction (c : TemplateCache) (now now2 k d : Nat)
    (hm : 1 ≤ c.max_size) (hlen : c.entries.length ≤ c.max_size) :
    (cacheSet c now k d).entries.length ≤ c.max_size ∧
    (∀ e, c.entries.length = c.max_size → lruEntry c.entries = some e →
      e.key ≠ k →
      findEntry e.key (cacheSet c now k d).entries = none ∧
      (cacheGet (cacheSet c now k d) now2 e.key).1 = none) := by
  constructor
  · by_cases hfull : c.entries.length ≥ c.max_size
    · have hEq : c.entries.length = c.max_size := le_antisymm hlen hfull
      have hne : c.entries ≠ [] := by
        intro h0; rw [h0] at hEq; simp at hEq; omega
      obtain ⟨e0, hlru⟩ := lruEntry_isSome c.entries hne
      have hmem := lruEntry_mem c.entries e0 hlru
      have hev : (evict_if_needed c).entries = evictKey e0.key c.entries := by
        unfold evict_if_needed
        rw [if_pos hfull, hlru]
      calc (cacheSet c now k d).entries.length
          = (storeEntry k now d (evict_if_needed c).entries).length := by
            rw [cacheSet_entries]
        _ ≤ (evict_if_needed c).entries.length + 1 := storeEntry_length_le _ _ _ _
        _ = (evictKey e0.key c.entries).length + 1 := by rw [hev]
        _ ≤ c.entries.length :=
            Nat.succ_le_of_lt (evictKey_length_lt e0.key c.entries e0 hmem rfl)
        _ ≤ c.max_size := hlen
    · have hev : (evict_if_needed c).entries = c.entries := by
        unfold evict_if_needed
        rw [if_neg hfull]
      calc (cacheSet c now k d).entries.length
          = (storeEntry k now d c.entries).length := by rw [cacheSet_entries, hev]
        _ ≤ c.entries.length + 1 := storeEntry_length_le _ _ _ _
        _ ≤ c.max_size := by omega
  · intro e hEq hlru hk
    have hev : (evict_if_needed c).entries = evictKey e.key c.entries := by
      unfold evict_if_needed
      rw [if_pos (by omega), hlru]
    have hnone : findEntry e.key (cacheSet c now k d).entries = none := by
      rw [cacheSet_entries, hev, findEntry_storeEntry_ne k e.key now d _ hk]
      exact findEntry_evictKey_self e.key c.entries
    exact ⟨hnone, cacheGet_none _ now2 _ hnone⟩

/-- `max_size = 2` scenario from the claim: templates 1 and 2 are cached,
template 1 is touched, and inserting a third distinct template 3 evicts the
least-recently-used entry (template 2, access time 1); a subsequent `get`
for template 2 misses, and the cache still holds at most two entries. -/
theorem C10_witness :
    lruEntry lruDemoCache.entries = some ⟨2, 1, 20⟩ ∧
    (cacheGet (cacheSet lruDemoCache 3 3 30) 4 2).1 = none ∧
    (cacheSet lruDemoCache 3 3 30).entries.length ≤ 2 := by
  refine ⟨by decide, ?_, ?_⟩
  · exact ((C10_lru_eviction lruDemoCache 3 4 3 30 (by decide) (by decide)).2
      ⟨2, 1, 20⟩ (by decide) (by decide) (by decide)).2
  · exact (C10_lru_eviction lruDemoCache 3 4 3 30 (by decide) (by decide)).1

theorem lookupPh_mapInsert_self (k : String) (r : PRecord)
    (m : List (String × PRecord)) :
    lookupPh k (mapInsert k r m) = some r := by
  induction m with
  | nil => simp [mapInsert, lookupPh, List.find?_cons]
  | cons p ps ih =>
    simp only [mapInsert]
    by_cases hp : p.1 = k
    · rw [if_pos hp]
      simp [lookupPh, List.find?_cons]
    · rw [if_neg hp]
      simpa [lookupPh, List.find?_cons, hp] using ih

theorem lookupPh_mapInsert_ne (k q : String) (r : PRecord)
    (m : List (String × PRecord)) (h : q ≠ k) :
    lookupPh q (mapInsert k r m) = lookupPh q m := by
  induction m with
  | nil => simp [mapInsert, lookupPh, List.find?_cons, Ne.symm h]
  | cons p ps ih =>
    simp only [mapInsert]
    by_cases hp : p.1 = k
    · rw [if_pos hp]
      simp [lookupPh, List.find?_cons, Ne.symm h, hp]
    · rw [if_neg hp]
      by_cases hq : p.1 = q
      · simp [lookupPh, List.find?_cons, hq]
      · simpa [lookupPh, List.find?_cons, hq] using ih

theorem detectFold_go (W H : Nat) (ink : InkOracle) (k : String) (hk : k ≠ "")
    (stream : List Obs) (m : List (String × PRecord)) :
    lookupPh k (stream.foldl (detectStep W H ink) m) =
      combinePh W H ink k (lookupPh k m) (qualifying k stream) := by
  induction stream generalizing m with
  | nil => simp [qualifying, combinePh]
  | cons o os ih =>
    rw [List.foldl_cons]
    by_cases hc : o.conf < MIN_CONFIDENCE
    · have hq : qualifying k (o :: os) = qualifying k os := by
        simp [qualifying, List.filter_cons, hc, not_le.mpr hc]
      have hstep : detectStep W H ink m o = m := by
        simp [detectStep, hc]
      rw [hstep, hq]
      exact ih m
    · push_neg at hc
      by_cases hnk : normalize_key o.rawKey = ""
      · have hq : qualifying k (o :: os) = qualifying k os := by
          have : normalize_key o.rawKey ≠ k := by rw [hnk]; exact Ne.symm hk
          simp [qualifying, List.filter_cons, this]
        have hstep : detectStep W H ink m o = m := by
          simp [detectStep, not_lt.mpr hc, hnk]
        rw [hstep, hq]
        exact ih m
      · by_cases hkk : normalize_key o.rawKey = k
        · have hq : qualifying k (o :: os) = o :: qualifying k os := by
            simp [qualifying, List.filter_cons, hkk, hc]
          rw [hq]
          cases hl : lookupPh k m with
          | none =>
            have hstep : detectStep W H ink m o =
                mapInsert k (build_placeholder_record W H ink o k) m := by
              simp only [detectStep]
              rw [if_neg (not_lt.mpr hc), if_neg hnk, hkk, hl]
            rw [hstep, ih, lookupPh_mapInsert_self]
            simp [combinePh]
          | some r =>
            by_cases hle : o.conf ≤ r.conf
            · have hstep : detectStep W H ink m o = m := by
                simp only [detectStep]
                rw [if_neg (not_lt.mpr hc), if_neg hnk, hkk, hl]
                exact if_pos hle
              rw [hstep, ih, hl]
              simp [combinePh, hle]
            · have hstep : detectStep W H ink m o =
                  mapInsert k (build_placeholder_record W H ink o k) m := by
                simp only [detectStep]
                rw [if_neg (not_lt.mpr hc), if_neg hnk, hkk, hl]
                exact if_neg hle
              rw [hstep, ih, lookupPh_mapInsert_self]
              simp [combinePh, hle]
        · have hq : qualifying k (o :: os) = qualifying k os := by
            simp [qualifying, List.filter_cons, hkk]
          have hstep : lookupPh k (detectStep W H ink m o) = lookupPh k m := by
            simp only [detectStep]
            rw [if_neg (not_lt.mpr hc), if_neg hnk]
            split
            · split
              · rfl
              · exact lookupPh_mapInsert_ne _ _ _ _ (fun h => hkk h.symm)
            · exact lookupPh_mapInsert_ne _ _ _ _ (fun h => hkk h.symm)
          rw [ih (detectStep W H ink m o), hstep, hq]

theorem combinePh_some (W H : Nat) (ink : InkOracle) (k : String)
    (rest : List Obs) : ∀ b : Obs,
    combinePh W H ink k (some (build_placeholder_record W H ink b k)) rest =
      some (build_placeholder_record W H ink
        (rest.foldl (fun best x => if best.conf < x.conf then x else best) b) k) := by
  induction rest with
  | nil => intro b; rfl
  | cons o os ih =>
    intro b
    rw [List.foldl_cons]
    simp only [combinePh]
    by_cases h : o.conf ≤ b.conf
    · rw [if_pos (show o.conf ≤ (build_placeholder_record W H ink b k).conf from h)]
      rw [if_neg (by omega)]
      exact ih b
    · rw [if_neg (show ¬ o.conf ≤ (build_placeholder_record W H ink b k).conf from h)]
      rw [if_pos (by omega)]
      exact ih o

theorem combinePh_bestObs (W H : Nat) (ink : InkOracle) (k : String)
    (qs : List Obs) :
    combinePh W H ink k none qs =
      (bestObs qs).map (fun o => build_placeholder_record W H ink o k) := by
  cases qs with
  | nil => rfl
  | cons q rest =>
    simp only [combinePh, bestObs, Option.map]
    exact combinePh_some W H ink k rest q

/-- **C7** (confirmed).  For every non-empty normalized key, the map built by
the detection loop holds exactly the record of the first observation
attaining the maximal confidence among all qualifying observations
(confidence ≥ 60, key normalizing to it) across every preprocessing variant
and page-segmentation pass: a stored record is replaced only on strictly
greater confidence, so equal-confidence duplicates keep the first-seen
observation and lower-confidence ones are discarded, never merged. -/
theorem C7_best_confidence_kept (W H : Nat) (ink : InkOracle)
    (stream : List Obs) (k : String) (hk : k ≠ "") :
    lookupPh k (detectFold W H ink stream) =
      (bestObs (qualifying k stream)).map
        (fun o => build_placeholder_record W H ink o k) := by
  rw [detectFold, detectFold_go W H ink k hk stream []]
  exact combinePh_bestObs W H ink k (qualifying k stream)

/-- Witness: on `demoStream` (confidences 70, 85, 85 for key `name`) the
kept record is the one of the **first** confidence-85 observation. -/
theorem C7_witness :
    lookupPh "NAME" (detectFold 100 100 (fun _ _ _ _ => none) demoStream) =
      some (build_placeholder_record 100 100 (fun _ _ _ _ => none)
        ⟨85, "name", "{{name}}", 12, 11, 48, 19⟩ "NAME") := by
  rw [C7_best_confidence_kept 100 100 (fun _ _ _ _ => none) demoStream "NAME"
    (by decide)]
  rfl

theorem tighten_bbox_inBounds (W H : Nat) (ink : InkOracle) (b : Box)
    (hb : boxInBounds W H b) : boxInBounds W H (tighten_bbox W H ink b) := by
  unfold tighten_bbox
  dsimp only
  split
  · exact hb
  · split
    · exact hb
    · split
      · exact hb
      · split
        · exact hb
        · rename_i hno
          simp only [Bool.or_eq_true, decide_eq_true_eq, not_or] at hno
          unfold boxInBounds
          dsimp only
          constructor <;> omega

theorem lookupPh_detectStep_empty (W H : Nat) (ink : InkOracle)
    (m : List (String × PRecord)) (o : Obs) (hm : lookupPh "" m = none) :
    lookupPh "" (detectStep W H ink m o) = none := by
  simp only [detectStep]
  split
  · exact hm
  · split
    · exact hm
    · rename_i hnk
      split
      · split
        · exact hm
        · rw [lookupPh_mapInsert_ne _ _ _ _ (fun h => hnk h.symm)]
          exact hm
      · rw [lookupPh_mapInsert_ne _ _ _ _ (fun h => hnk h.symm)]
        exact hm

theorem lookupPh_detectFold_empty (W H : Nat) (ink : InkOracle)
    (stream : List Obs) :
    lookupPh "" (detectFold W H ink stream) = none := by
  suffices h : ∀ m, lookupPh "" m = none →
      lookupPh "" (stream.foldl (detectStep W H ink) m) = none from h [] rfl
  induction stream with
  | nil => intro m hm; simpa using hm
  | cons o os ih =>
    intro m hm
    rw [List.foldl_cons]
    exact ih _ (lookupPh_detectStep_empty W H ink m o hm)

theorem foldObs_pick_mem (es : List Obs) (b : Obs) :
    es.foldl (fun best x => if best.conf < x.conf then x else best) b ∈ b :: es := by
  induction es generalizing b with
  | nil => simp
  | cons x xs ih =>
    rw [List.foldl_cons]
    rcases List.mem_cons.mp (ih (if b.conf < x.conf then x else b)) with h1 | h1
    · rw [h1]
      by_cases hc : b.conf < x.conf
      · rw [if_pos hc]; exact List.mem_cons_of_mem _ (List.mem_cons_self _ _)
      · rw [if_neg hc]; exact List.mem_cons_self _ _
    · exact List.mem_cons_of_mem _ (List.mem_cons_of_mem _ h1)

theorem bestObs_mem (qs : List Obs) (o : Obs) (h : bestObs qs = some o) :
    o ∈ qs := by
  cases qs with
  | nil => cases h
  | cons x xs =>
    rw [bestObs] at h
    injection h with h
    rw [← h]
    exact foldObs_pick_mem xs x

theorem mem_qualifying (k : String) (stream : List Obs) (o : Obs)
    (h : o ∈ qualifying k stream) :
    o ∈ stream ∧ MIN_CONFIDENCE ≤ o.conf ∧ normalize_key o.rawKey = k := by
  refine ⟨List.mem_of_mem_filter h, ?_⟩
  have hp := List.of_mem_filter h
  simpa using hp

/-- **C8** (corrected).  On the OCR detection path every returned record has
a non-empty key that is the image of `_normalize_key`, confidence at least
`MIN_CONFIDENCE = 60`, and (assuming the OCR engine reports token boxes
inside the image) a bbox within the image bounds, duplicated into the flat
fields.  The degraded fallback path, however, returns records whose
confidence is exactly 50 — below the claimed minimum of 60. -/
theorem C8_detection_invariants (W H : Nat) (ink : InkOracle)
    (stream : List Obs) (hin : ∀ o ∈ stream, obsInBounds W H o)
    (k : String) (r : PRecord)
    (hr : lookupPh k (detect_all_placeholders true none (some (W, H)) ink
      stream) = some r) :
    (k ≠ "" ∧ (∃ raw, k = normalize_key raw) ∧ MIN_CONFIDENCE ≤ r.conf ∧
      boxInBounds W H r.bbox ∧ r.left = r.bbox.left ∧ r.top = r.bbox.top ∧
      r.width = r.bbox.width ∧ r.height = r.bbox.height) ∧
    (∀ (w h : Nat) (k' : String) (r' : PRecord),
      lookupPh k' (detect_all_placeholders false none (some (w, h)) ink
        stream) = some r' → r'.conf = 50) := by
  constructor
  · have hdet : detect_all_placeholders true none (some (W, H)) ink stream =
        detectFold W H ink stream := rfl
    rw [hdet] at hr
    have hk : k ≠ "" := by
      intro h0
      rw [h0, lookupPh_detectFold_empty] at hr
      cases hr
    rw [C7_best_confidence_kept W H ink stream k hk] at hr
    cases hb : bestObs (qualifying k stream) with
    | none => rw [hb] at hr; cases hr
    | some o =>
      rw [hb] at hr
      simp only [Option.map] at hr
      injection hr with hr
      obtain ⟨hmem, hconf, hkey⟩ :=
        mem_qualifying k stream o (bestObs_mem _ o hb)
      have hob := hin o hmem
      subst hr
      refine ⟨hk, ⟨o.rawKey, hkey.symm⟩, hconf, ?_, rfl, rfl, rfl, rfl⟩
      exact tighten_bbox_inBounds W H ink ⟨o.left, o.top, o.width, o.height⟩ hob
  · intro w h k' r' hf
    have hfall : detect_all_placeholders false none (some (w, h)) ink stream =
        fallback_placeholders (some (w, h)) := rfl
    rw [hfall] at hf
    unfold lookupPh at hf
    cases hp : (fallback_placeholders (some (w, h))).find? (fun p => p.1 = k') with
    | none => rw [hp] at hf; cases hf
    | some p =>
      rw [hp] at hf
      simp only [Option.map] at hf
      injection hf with hf
      have hmem := List.mem_of_find?_eq_some hp
      subst hf
      simp [fallback_placeholders] at hmem
      rcases hmem with h1 | h1 | h1 <;> rw [h1]

/-- **C8 counterexample**: with tesseract unavailable,
`detect_all_placeholders` returns the fallback map, whose `NAME` record has
confidence 50, below the claimed minimum of 60. -/
theorem C8_counterexample :
    ∃ r : PRecord,
      lookupPh "NAME" (detect_all_placeholders false none (some (1000, 1000))
        (fun _ _ _ _ => none) []) = some r ∧
      r.conf = 50 ∧ r.conf < MIN_CONFIDENCE := by
  refine ⟨_, rfl, rfl, by decide⟩

theorem C8_witness :
    MIN_CONFIDENCE ≤ (build_placeholder_record 100 100 (fun _ _ _ _ => none)
      ⟨85, "name", "{{name}}", 12, 11, 48, 19⟩ "NAME").conf ∧
    boxInBounds 100 100 (build_placeholder_record 100 100 (fun _ _ _ _ => none)
      ⟨85, "name", "{{name}}", 12, 11, 48, 19⟩ "NAME").bbox :=
  ⟨(C8_detection_invariants 100 100 (fun _ _ _ _ => none) demoStream
      (by decide) "NAME" _ rfl).1.2.2.1,
   (C8_detection_invariants 100 100 (fun _ _ _ _ => none) demoStream
      (by decide) "NAME" _ rfl).1.2.2.2.1⟩

theorem fitLoop_ge8 (measure : MeasureOracle) (bw bh : Nat) :
    ∀ fuel size, 8 ≤ fitLoop measure bw bh fuel size := by
  intro fuel
  induction fuel with
  | zero => intro size; simp [fitLoop]
  | succ n ih =>
    intro size
    simp only [fitLoop]
    split
    · omega
    · split
      · rename_i h8 _
        omega
      · exact ih (size - 1)

theorem fitLoop_spec (measure : MeasureOracle) (bw bh : Nat) :
    ∀ fuel size, size < fuel →
      (fitsAt measure bw bh (fitLoop measure bw bh fuel size) = true ∨
        (fitLoop measure bw bh fuel size = 8 ∧
          ∀ t, 8 ≤ t → t ≤ size → fitsAt measure bw bh t = false)) ∧
      (∀ t, fitLoop measure bw bh fuel size < t → t ≤ size →
        fitsAt measure bw bh t = false) := by
  intro fuel
  induction fuel with
  | zero => intro size h; exact absurd h (by omega)
  | succ n ih =>
    intro size hlt
    simp only [fitLoop]
    by_cases h8 : size < 8
    · rw [if_pos h8]
      refine ⟨Or.inr ⟨rfl, fun t ht1 ht2 => ?_⟩, fun t ht1 ht2 => ?_⟩
      · exact absurd ht2 (by omega)
      · exact absurd ht2 (by omega)
    · rw [if_neg h8]
      by_cases hfit : fitsAt measure bw bh size = true
      · rw [if_pos hfit]
        exact ⟨Or.inl hfit, fun t ht1 ht2 => absurd ht2 (by omega)⟩
      · rw [if_neg hfit]
        simp only [Bool.not_eq_true] at hfit
        have hrec := ih (size - 1) (by omega)
        refine ⟨?_, fun t ht1 ht2 => ?_⟩
        · rcases hrec.1 with h1 | ⟨h1, h2⟩
          · exact Or.inl h1
          · refine Or.inr ⟨h1, fun t ht1 ht2 => ?_⟩
            by_cases he : t ≤ size - 1
            · exact h2 t ht1 he
            · have ht : t = size := by omega
              rw [ht]; exact hfit
        · by_cases he : t ≤ size - 1
          · exact hrec.2 t ht1 he
          · have ht : t = size := by omega
            rw [ht]; exact hfit

/-- **C9** (corrected).  `derive_font_size` descends from
`max(int(bbox_height * 0.9), 12)` with floor 8 and stops at the first size
passing the 97 % / 95 % fit test; the resolved size is always ≥ 8 and no
larger tried size fits.  But the "never visually overflows" guarantee fails:
when no size down to 8 fits, 8 is returned even though the text at size 8
still exceeds the box (see the counterexample). -/
theorem C9_font_size_floor (measure : MeasureOracle) (bw bh : Nat)
    (hw : 0 < bw) (hh : 0 < bh) :
    8 ≤ derive_font_size measure bw bh ∧
    (∀ t, derive_font_size measure bw bh < t → t ≤ max (bh * 9 / 10) 12 →
      fitsAt measure bw bh t = false) ∧
    (fitsAt measure bw bh (derive_font_size measure bw bh) = true →
      (measure (derive_font_size measure bw bh)).1 * 100 ≤ bw * 97 ∧
      (measure (derive_font_size measure bw bh)).2 * 100 ≤ bh * 95) ∧
    (fitsAt measure bw bh (derive_font_size measure bw bh) = false →
      derive_font_size measure bw bh = 8) := by
  have h1 := fitLoop_ge8 measure bw bh (max (bh * 9 / 10) 12 + 1)
    (max (bh * 9 / 10) 12)
  have h2 := fitLoop_spec measure bw bh (max (bh * 9 / 10) 12 + 1)
    (max (bh * 9 / 10) 12) (by omega)
  unfold derive_font_size
  refine ⟨h1, h2.2, ?_, ?_⟩
  · intro hfit
    have hbw : ¬ (bw = 0) := by omega
    have hbh : ¬ (bh = 0) := by omega
    simp [fitsAt, hbw, hbh] at hfit
    exact hfit
  · intro hfalse
    rcases h2.1 with hA | ⟨hB, -⟩
    · rw [hfalse] at hA; cases hA
    · exact hB

/-- **C9 counterexample**: a text measured 1000 px wide at every size, in a
100×20 box: no size fits, the loop bottoms out at 8, and the centered draw
at the resolved size starts 410 px left of the box — the rendered text
overflows the bbox region. -/
theorem C9_counterexample :
    derive_font_size (fun _ => (1000, 10)) 100 20 = 8 ∧
    fitsAt (fun _ => (1000, 10)) 100 20 8 = false ∧
    drawOriginX 40 100 1000 < 40 := by
  refine ⟨by decide, by decide, by decide⟩

theorem C9_witness :
    8 ≤ derive_font_size (fun s => (s, s)) 100 100 ∧
    derive_font_size (fun s => (s, s)) 100 100 = 90 :=
  ⟨(C9_font_size_floor (fun s => (s, s)) 100 100 (by decide) (by decide)).1,
   by decide⟩

end CertiMate
